import Mathlib

/-!
Verification development for the juju machine-actions worker
(`worker/machineactions/worker.go`).

The worker watches for action identifiers enqueued for one agent, fetches
each action record through a `Facade`, marks it running, dispatches it to a
configured handler, and reports a terminal status.  The built-in handler
(`HandleAction` / `handleJujuRunAction`) decodes a command string and a
floating-point nanosecond timeout from the action's parameter mapping and
runs the command with an optional timeout (`runCommandWithTimeout`).

The embedding below translates the worker's control flow directly from the
Go source.  External collaborators (the `Facade` interface, the configured
handler function, the `names` tag library, and the `juju/utils/exec`
command runner) are interfaces or dependencies outside this repository;
they enter the model as explicit parameters, with their contracts taken
from the source's use of them (for the exec/clock race, from the spec's
description of the executor contract, noted where relevant).
-/

namespace MachineActions

/-- A loosely-typed Go value as found in a `map[string]interface{}`
parameter mapping: a string, a float64 number (represented exactly as a
rational; every float64 is a rational and the claims use only integral
values), or some other dynamic value.  A Go two-value type assertion
`v.(string)` succeeds exactly on the `str` constructor, `v.(float64)`
exactly on `num`. -/
inductive GoValue where
  | str (s : String)
  | num (q : Rat)
  | other
  deriving DecidableEq, Repr

/-- A Go `map[string]interface{}`, modelled as an association list. -/
abbrev ParamsMap := List (String × GoValue)

/-- Association-list lookup, modelling Go map indexing (`params["k"]`):
`none` models the missing-key case (a `nil` interface value). -/
def lookupParam (p : ParamsMap) (k : String) : Option GoValue :=
  (p.find? (fun kv => kv.1 = k)).map (·.2)

/-- Terminal action statuses used by the worker
(`params.ActionCancelled`, `params.ActionCompleted`). -/
inductive ActionStatus where
  | completed
  | cancelled
  deriving DecidableEq, Repr

/-- The part of an action record the worker reads after fetching it:
`action.Name()` and `action.Params()`. -/
structure ActionRecord where
  name : String
  actionParams : ParamsMap
  deriving Repr

/-- Oracle for the `Facade` interface as used by `handler.Handle`: the
responses the facade would give to each call.  `action` models
`Facade.Action` (fetch by identifier), `actionBegin` models
`Facade.ActionBegin`, and `actionFinish` models `Facade.ActionFinish`
(with `Option ResultsMap` distinguishing Go's `nil` results map from a
populated one). -/
structure FacadeOracle where
  action : String → Except String ActionRecord
  actionBegin : String → Except String Unit
  actionFinish : String → ActionStatus → Option ParamsMap → String → Except String Unit

/-- The configured handler capability
(`WorkerConfig.HandleAction : func(name, params) (results, err)`). -/
abbrev HandlerFn := String → ParamsMap → Except String ParamsMap

/-- One observable interaction of the processing loop: a facade call or a
log emission.  `finish` records the status, results mapping (`none` for a
Go `nil` map) and message passed to `Facade.ActionFinish`. -/
inductive Event where
  | fetch (id : String)
  | beginAction (id : String)
  | finish (id : String) (status : ActionStatus) (results : Option ParamsMap) (message : String)
  | log (msg : String)
  deriving DecidableEq, Repr

/-- How a call to `handler.Handle` ends: a normal `nil` return, an error
return (fatal to the watch loop), or a runtime panic. -/
inductive HandleOutcome where
  | ok
  | err (e : String)
  | crash (msg : String)
  deriving DecidableEq, Repr

/-- Shallow embedding of `handler.Handle` (worker.go lines 100-129),
parameterised by the `names.IsValidAction` validity predicate of the
`names` library, the facade oracle and the configured handler.  Returns
the trace of facade calls / logs and the outcome.

Faithful control-flow notes, each visible in the Go source:
* the validity check's `errors.Errorf(...)` result is discarded: the
  branch neither logs nor alters control flow, so an invalid identifier
  falls through to `names.NewActionTag`, which panics on any identifier
  failing the same validity check (documented behaviour of the `names`
  dependency) — modelled as the `crash` outcome;
* a fetch failure or begin failure returns an error from `Handle`;
* after the handler runs, the loop body `return`s the result of the
  finish call on both branches, so at most the first identifier of a
  batch is ever processed and the remainder of `actionsSlice` is dropped. -/
def handleBatch (isValidAction : String → Bool) (f : FacadeOracle) (handleAction : HandlerFn) :
    List String → List Event × HandleOutcome
  | [] => ([], .ok)
  | actionId :: _rest =>
    if !isValidAction actionId then
      -- `errors.Errorf("got invalid action id %s", actionId)` discarded,
      -- then `names.NewActionTag actionId` panics.
      ([], .crash ("invalid action id " ++ actionId))
    else
      match f.action actionId with
      | .error _ =>
        ([.fetch actionId], .err ("could not retrieve action " ++ actionId))
      | .ok record =>
        match f.actionBegin actionId with
        | .error _ =>
          ([.fetch actionId, .beginAction actionId],
           .err ("could not begin action " ++ record.name))
        | .ok _ =>
          match handleAction record.name record.actionParams with
          | .error e =>
            ([.fetch actionId, .beginAction actionId,
              .finish actionId .cancelled none e],
             match f.actionFinish actionId .cancelled none e with
             | .ok _ => .ok
             | .error fe => .err fe)
          | .ok results =>
            ([.fetch actionId, .beginAction actionId,
              .finish actionId .completed (some results) ""],
             match f.actionFinish actionId .completed (some results) "" with
             | .ok _ => .ok
             | .error fe => .err fe)

/-- Number of finish requests for identifier `id` in a trace. -/
def finishCount (trace : List Event) (id : String) : Nat :=
  trace.countP (fun ev => match ev with
    | .finish i _ _ _ => i = id
    | _ => false)

/-- Whether a trace contains a finish request for `id` with status `st`. -/
def hasFinishWithStatus (trace : List Event) (id : String) (st : ActionStatus) : Bool :=
  trace.any (fun ev => match ev with
    | .finish i s _ _ => i = id && s = st
    | _ => false)

/-- One entry of the `params.ActionResult` slice returned by
`Facade.RunningActions`: the worker reads only `action.Action.Tag`. -/
structure RunningAction where
  tag : String
  deriving DecidableEq, Repr

/-- Shallow embedding of the cleanup loop of `handler.SetUp` (worker.go
lines 82-93), parameterised by `names.ParseActionTag` (`none` models a
parse error) and by the facade's response to each `ActionFinish` call.
The loop walks the running-actions slice in order: a tag that fails to
parse is logged and `continue`d past; otherwise one
`ActionFinish(tag, ActionCancelled, nil, "action cancelled")` call is
made, and a failure of that call is logged.  No branch aborts the loop. -/
def setUpCleanup (parseActionTag : String → Option String)
    (finishCall : String → ActionStatus → Option ParamsMap → String → Except String Unit) :
    List RunningAction → List Event
  | [] => []
  | action :: rest =>
    match parseActionTag action.tag with
    | none =>
      .log ("tried to cancel action " ++ action.tag ++ " but failed") ::
        setUpCleanup parseActionTag finishCall rest
    | some tag =>
      .finish tag .cancelled none "action cancelled" ::
        (match finishCall tag .cancelled none "action cancelled" with
         | .error _ =>
             [.log ("tried to cancel action " ++ action.tag ++ " but failed")]
         | .ok _ => []) ++
        setUpCleanup parseActionTag finishCall rest

/-- Number of finish requests (to any identifier) in a trace. -/
def totalFinishCount (trace : List Event) : Nat :=
  trace.countP (fun ev => match ev with
    | .finish _ _ _ _ => true
    | _ => false)

/-!
## Command execution with timeout

`runCommandWithTimeout` (worker.go lines 163-185) starts the command
(`cmd.Run()`), and when the timeout is non-zero allocates a fresh `cancel`
channel and spawns a goroutine that waits on `clock.After(timeout)` and
then closes the channel; `cmd.WaitWithCancel(cancel)` races the command's
natural completion against a close of that channel (on a `nil` channel it
simply awaits completion).  The goroutine is never stopped: when the
command wins the race its timer keeps running and eventually closes the —
by then unobserved — channel.

The exec/clock collaborators live in the `juju/utils/exec` and
`juju/utils/clock` dependencies; their contract here follows the spec's
executor description (start asynchronously; await completion or the
cancellation signal, whichever is first; on cancellation kill the process
and return the partial result annotated as cancelled).  The model makes
channel identity and leftover timers explicit so that late firings are
represented rather than assumed away: a run's cancel signal is whichever
registered timer targeting *its* channel fires first, and timers left
behind by earlier runs stay in the state.  A tie (timer and completion at
the same instant) is resolved in favour of completion; the claims below
only use strict inequalities.
-/

/-- A pending timer goroutine: at absolute time `fireAt` it closes
channel `chan_`. -/
structure PendingTimer where
  fireAt : Nat
  chan_ : Nat
  deriving DecidableEq, Repr

/-- World state threaded through command executions: the current absolute
time (nanoseconds), the next fresh channel identity, and the timers whose
goroutines are still waiting to fire. -/
structure ExecState where
  now : Nat
  nextChan : Nat
  pending : List PendingTimer
  deriving DecidableEq, Repr

/-- `exec.ExecResponse`: exit code plus captured output bytes. -/
structure ExecResponse where
  code : Int
  stdout : String
  stderr : String
  deriving DecidableEq, Repr

/-- Behaviour of one external command, as the executor sees it: whether
`cmd.Run()` succeeds, the error text when it does not, the time the
command needs to complete naturally, its full result, and the partial
result available if it is killed early. -/
structure CommandSpec where
  startsOk : Bool
  startErr : String
  natDuration : Nat
  result : ExecResponse
  partialResult : ExecResponse
  deriving DecidableEq, Repr

/-- Outcome of one `runCommandWithTimeout` call: `startError` models the
`cmd.Run()` failure return (`nil` response, error), `completed` the
command's own result, `cancelledByTimeout` the partial result returned
after the cancel channel closed (`WaitWithCancel` kills the process and
returns `ErrCancelled`). -/
inductive RunOutcome where
  | startError (e : String)
  | completed (res : ExecResponse)
  | cancelledByTimeout (partialRes : ExecResponse)
  deriving DecidableEq, Repr

/-- What one call to `runCommandWithTimeout` yields: its outcome, the
absolute time at which the call returns, and how many times the
cancellation capability (closing the channel / killing the process) was
invoked on the still-running command. -/
structure RunResult where
  outcome : RunOutcome
  returnAt : Nat
  cancelInvocations : Nat
  deriving DecidableEq, Repr

/-- The earliest firing time among registered timers targeting channel
`ch`, `none` if no timer targets it. -/
def earliestFire (timers : List PendingTimer) (ch : Nat) : Option Nat :=
  match timers with
  | [] => none
  | tm :: rest =>
    let r := earliestFire rest ch
    if tm.chan_ = ch then
      match r with
      | none => some tm.fireAt
      | some t => some (min tm.fireAt t)
    else r

/-- Timers still pending after the world has advanced to time `t`
(a timer with `fireAt ≤ t` has fired — closing its, possibly dead,
channel — and its goroutine has exited). -/
def survivingTimers (timers : List PendingTimer) (t : Nat) : List PendingTimer :=
  timers.filter (fun tm => t < tm.fireAt)

/-- Shallow embedding of `runCommandWithTimeout` (worker.go lines
163-185).  `timeout` is the `time.Duration` argument (int64 nanoseconds).
Control flow from the source: a `cmd.Run()` failure returns immediately
(no channel, no timer); with `timeout != 0` a fresh channel is allocated
and a timer goroutine registered for `now + timeout` (`clock.After` of a
non-positive duration fires immediately, hence `Int.toNat`);
`WaitWithCancel` then returns at the earlier of the command's natural
completion and the first close of the run's own channel.  With
`timeout == 0` the channel stays `nil` and completion is awaited
unconditionally. -/
def runCommandWithTimeout (st : ExecState) (c : CommandSpec) (timeout : Int) :
    RunResult × ExecState :=
  if !c.startsOk then
    (⟨.startError c.startErr, st.now, 0⟩, st)
  else if timeout ≠ 0 then
    let ch := st.nextChan
    let timers := st.pending ++ [⟨st.now + timeout.toNat, ch⟩]
    let completeAt := st.now + c.natDuration
    match earliestFire timers ch with
    | some tFire =>
      if tFire < completeAt then
        (⟨.cancelledByTimeout c.partialResult, tFire, 1⟩,
         ⟨tFire, ch + 1, survivingTimers timers tFire⟩)
      else
        (⟨.completed c.result, completeAt, 0⟩,
         ⟨completeAt, ch + 1, survivingTimers timers completeAt⟩)
    | none =>
      (⟨.completed c.result, completeAt, 0⟩,
       ⟨completeAt, ch + 1, survivingTimers timers completeAt⟩)
  else
    let completeAt := st.now + c.natDuration
    (⟨.completed c.result, completeAt, 0⟩,
     ⟨completeAt, st.nextChan, survivingTimers st.pending completeAt⟩)

/-- Channel freshness invariant: every pending timer targets a channel
allocated strictly before `nextChan`.  It holds of any initial state with
no pending timers and is preserved by `runCommandWithTimeout`. -/
def ChanInv (st : ExecState) : Prop :=
  ∀ tm ∈ st.pending, tm.chan_ < st.nextChan

/-- Reference behaviour of one bounded run in isolation, following the
spec's executor algorithm (section 4.3): it depends only on the starting
time, the command and the timeout — never on leftover timers.  Used to
state that leftover timers cannot affect a later execution. -/
def soloRun (now : Nat) (c : CommandSpec) (timeout : Int) : RunResult :=
  if !c.startsOk then
    ⟨.startError c.startErr, now, 0⟩
  else if timeout ≠ 0 ∧ now + timeout.toNat < now + c.natDuration then
    ⟨.cancelledByTimeout c.partialResult, now + timeout.toNat, 1⟩
  else
    ⟨.completed c.result, now + c.natDuration, 0⟩

/-!
## The built-in juju-run handler

`handleJujuRunAction` (worker.go lines 144-161) decodes the command text
and the timeout from the loosely-typed parameter mapping with two-value
type assertions (`params["command"].(string)`,
`params["timeout"].(float64)`), runs the command, and packages the
response fields into the results mapping.
-/

/-- The Go two-value assertion `v.(string)` applied to a map lookup:
yields the string, or the zero value `""` when the key is absent or the
value is not a string.  Translates `command, _ := params["command"].(string)`. -/
def decodeCommand (p : ParamsMap) : String :=
  match lookupParam p "command" with
  | some (.str s) => s
  | _ => ""

/-- The Go two-value assertion `v.(float64)` applied to a map lookup:
yields the number, or the zero value `0` when the key is absent or the
value is not a float64.  Translates `timeout, _ := params["timeout"].(float64)`. -/
def decodeTimeout (p : ParamsMap) : Rat :=
  match lookupParam p "timeout" with
  | some (.num q) => q
  | _ => 0

/-- The conversion `time.Duration(timeout)` from a float64 nanosecond
count to the int64-nanosecond duration type: truncation toward zero, with
no unit scaling. -/
def goDuration (q : Rat) : Int :=
  q.num / (q.den : Int)

/-- The results mapping built from a non-nil `ExecResponse`
(`actionResults["Code"|"Stdout"|"Stderr"] = ...`; `fmt.Sprintf("%s", b)`
renders the captured bytes as a string). -/
def mkActionResults (r : ExecResponse) : ParamsMap :=
  [("Code", .num (r.code : Rat)), ("Stdout", .str r.stdout), ("Stderr", .str r.stderr)]

/-- Shallow embedding of `handleJujuRunAction` (worker.go lines 144-161),
parameterised by `world`, mapping each command text to its behaviour, and
threading the executor state.  Go's `(results, err)` pair is returned
directly: `err` is `none` on the nil-error path.  On a `cmd.Run()`
failure the response is nil, so the results mapping stays empty and the
error is returned; on a timeout the partial response is packaged and
`WaitWithCancel`'s `ErrCancelled` ("command cancelled") is returned
alongside it. -/
def handleJujuRunAction (world : String → CommandSpec) (st : ExecState) (p : ParamsMap) :
    (ParamsMap × Option String) × ExecState :=
  let command := decodeCommand p
  let timeout := decodeTimeout p
  let (r, st') := runCommandWithTimeout st (world command) (goDuration timeout)
  match r.outcome with
  | .startError e => (([], some e), st')
  | .completed res => ((mkActionResults res, none), st')
  | .cancelledByTimeout res => ((mkActionResults res, some "command cancelled"), st')

/-- `actions.JujuRunActionName` from the core/actions dependency. -/
def jujuRunActionName : String := "juju-run"

/-- Shallow embedding of the exported `HandleAction` dispatcher
(worker.go lines 137-142): the juju-run name goes to
`handleJujuRunAction`; any other name is an error. -/
def HandleActionGo (world : String → CommandSpec) (st : ExecState)
    (name : String) (p : ParamsMap) : (ParamsMap × Option String) × ExecState :=
  if name = jujuRunActionName then
    handleJujuRunAction world st p
  else
    (([], some ("unexpected action " ++ name)), st)

/-!
## Concrete oracles used to evaluate the model on closed inputs
-/

/-- A facade whose fetch, begin and finish calls all succeed; every fetch
returns a record named `some-action` with empty parameters. -/
def allOkFacade : FacadeOracle where
  action := fun _ => .ok ⟨"some-action", []⟩
  actionBegin := fun _ => .ok ()
  actionFinish := fun _ _ _ _ => .ok ()

/-- A facade whose fetch calls fail. -/
def fetchFailFacade : FacadeOracle where
  action := fun _ => .error "no such action"
  actionBegin := fun _ => .ok ()
  actionFinish := fun _ _ _ _ => .ok ()

/-- A facade whose begin calls fail. -/
def beginFailFacade : FacadeOracle where
  action := fun _ => .ok ⟨"some-action", []⟩
  actionBegin := fun _ => .error "begin refused"
  actionFinish := fun _ _ _ _ => .ok ()

/-- A handler that always succeeds with a fixed results mapping. -/
def okHandler : HandlerFn := fun _ _ => .ok [("out", .str "hi")]

/-- A handler that always fails with error text `boom`. -/
def errHandler : HandlerFn := fun _ _ => .error "boom"

/-!
## Claims about the processing loop (`handler.Handle`)
-/

/-- C1: the claim says every identifier of a delivered batch is processed
(fetch, begin, dispatch, terminal finish) one at a time in delivery
order, and none is discarded.  Evaluating `handleBatch` on a batch of two
valid identifiers with an all-succeeding facade and handler shows the
loop body `return`s the first identifier's finish result, so the second
identifier is dropped: the trace holds the fetch/begin/finish triple for
`action-1` only and no fetch of `action-2` ever happens, contradicting
the claim (and the function's own comment "We try to execute every action
before returning"). -/
theorem c1_only_first_of_batch_processed :
    handleBatch (fun _ => true) allOkFacade okHandler ["action-1", "action-2"]
      = ([.fetch "action-1", .beginAction "action-1",
          .finish "action-1" .completed (some [("out", .str "hi")]) ""], .ok)
    ∧ Event.fetch "action-2"
        ∉ (handleBatch (fun _ => true) allOkFacade okHandler ["action-1", "action-2"]).1 := by
  constructor
  · rfl
  · decide

/-- C2: the claim says a syntactically invalid identifier is logged and
skipped, the loop continuing with the rest of the batch.  Evaluating
`handleBatch` where `bogus-id` is invalid and `good-id` is valid shows
what the code actually does: the validity check discards the error it
constructs, control falls through to `names.NewActionTag`, which panics,
the trace holds no log event, and the remaining valid identifier is never
fetched — the loop neither logs, nor skips, nor continues. -/
theorem c2_invalid_id_neither_logged_nor_skipped :
    handleBatch (fun s => s == "good-id") allOkFacade okHandler ["bogus-id", "good-id"]
      = ([], .crash "invalid action id bogus-id") := by
  rfl

/-- C3: whenever the configured handler returns an error for a dispatched
action, the loop issues exactly one finish request for that action —
status Cancelled, nil (empty) results mapping, the handler's error text
as the message — and never a Completed finish for it.  (Only the head of
a batch is ever dispatched, so the head case covers every dispatched
action.) -/
theorem c3_handler_error_yields_single_cancelled_finish
    (isValid : String → Bool) (f : FacadeOracle) (h : HandlerFn)
    (id : String) (rest : List String) (record : ActionRecord) (e : String)
    (hv : isValid id = true)
    (hfetch : f.action id = .ok record)
    (hbegin : f.actionBegin id = .ok ())
    (herr : h record.name record.actionParams = .error e) :
    finishCount (handleBatch isValid f h (id :: rest)).1 id = 1
    ∧ Event.finish id .cancelled none e ∈ (handleBatch isValid f h (id :: rest)).1
    ∧ hasFinishWithStatus (handleBatch isValid f h (id :: rest)).1 id .completed = false := by
  simp only [handleBatch, hv, hfetch, hbegin, herr, Bool.not_true, Bool.false_eq_true,
    if_false]
  refine ⟨?_, ?_, ?_⟩
  · simp [finishCount, List.countP_cons]
  · simp
  · simp [hasFinishWithStatus]

/-- Closed instance of the C3 theorem: a two-identifier batch whose
handler fails with `boom`. -/
theorem c3_handler_error_witness :
    finishCount (handleBatch (fun _ => true) allOkFacade errHandler ["a-1", "a-2"]).1 "a-1" = 1
    ∧ Event.finish "a-1" .cancelled none "boom"
        ∈ (handleBatch (fun _ => true) allOkFacade errHandler ["a-1", "a-2"]).1
    ∧ hasFinishWithStatus (handleBatch (fun _ => true) allOkFacade errHandler ["a-1", "a-2"]).1
        "a-1" .completed = false :=
  c3_handler_error_yields_single_cancelled_finish (fun _ => true) allOkFacade errHandler
    "a-1" ["a-2"] ⟨"some-action", []⟩ "boom" rfl rfl rfl rfl

/-- C4: whenever the configured handler returns successfully for a
dispatched action, the loop issues exactly one finish request for that
action — status Completed, the handler's results mapping, empty message —
and never a Cancelled finish for it. -/
theorem c4_handler_success_yields_single_completed_finish
    (isValid : String → Bool) (f : FacadeOracle) (h : HandlerFn)
    (id : String) (rest : List String) (record : ActionRecord) (results : ParamsMap)
    (hv : isValid id = true)
    (hfetch : f.action id = .ok record)
    (hbegin : f.actionBegin id = .ok ())
    (hok : h record.name record.actionParams = .ok results) :
    finishCount (handleBatch isValid f h (id :: rest)).1 id = 1
    ∧ Event.finish id .completed (some results) "" ∈ (handleBatch isValid f h (id :: rest)).1
    ∧ hasFinishWithStatus (handleBatch isValid f h (id :: rest)).1 id .cancelled = false := by
  simp only [handleBatch, hv, hfetch, hbegin, hok, Bool.not_true, Bool.false_eq_true,
    if_false]
  refine ⟨?_, ?_, ?_⟩
  · simp [finishCount, List.countP_cons]
  · simp
  · simp [hasFinishWithStatus]

/-- Closed instance of the C4 theorem: a two-identifier batch whose
handler succeeds with a fixed results mapping. -/
theorem c4_handler_success_witness :
    finishCount (handleBatch (fun _ => true) allOkFacade okHandler ["a-1", "a-2"]).1 "a-1" = 1
    ∧ Event.finish "a-1" .completed (some [("out", .str "hi")]) ""
        ∈ (handleBatch (fun _ => true) allOkFacade okHandler ["a-1", "a-2"]).1
    ∧ hasFinishWithStatus (handleBatch (fun _ => true) allOkFacade okHandler ["a-1", "a-2"]).1
        "a-1" .cancelled = false :=
  c4_handler_success_yields_single_completed_finish (fun _ => true) allOkFacade okHandler
    "a-1" ["a-2"] ⟨"some-action", []⟩ [("out", .str "hi")] rfl rfl rfl rfl

/-- C9: a failing fetch, or a failing begin, makes `Handle` return an
error immediately: the trace stops at the failing call (nothing later in
the batch is touched, nothing is logged and skipped) and the outcome is
an error return, which the strings-watcher framework propagates to the
supervising process as the worker's fatal error. -/
theorem c9_fetch_or_begin_failure_fatal
    (isValid : String → Bool) (f : FacadeOracle) (h : HandlerFn)
    (id : String) (rest : List String) (record : ActionRecord) (efetch ebegin : String)
    (hv : isValid id = true)
    (hcase : f.action id = .error efetch
      ∨ (f.action id = .ok record ∧ f.actionBegin id = .error ebegin)) :
    handleBatch isValid f h (id :: rest)
        = ([.fetch id], .err ("could not retrieve action " ++ id))
    ∨ handleBatch isValid f h (id :: rest)
        = ([.fetch id, .beginAction id], .err ("could not begin action " ++ record.name)) := by
  rcases hcase with hfetch | ⟨hfetch, hbegin⟩
  · left
    simp [handleBatch, hv, hfetch]
  · right
    simp [handleBatch, hv, hfetch, hbegin]

/-- Closed instance of the C9 theorem, fetch-failure case. -/
theorem c9_fetch_failure_witness :
    handleBatch (fun _ => true) fetchFailFacade okHandler ["a-1", "a-2"]
        = ([.fetch "a-1"], .err "could not retrieve action a-1")
    ∨ handleBatch (fun _ => true) fetchFailFacade okHandler ["a-1", "a-2"]
        = ([.fetch "a-1", .beginAction "a-1"], .err "could not begin action some-action") :=
  c9_fetch_or_begin_failure_fatal (fun _ => true) fetchFailFacade okHandler
    "a-1" ["a-2"] ⟨"some-action", []⟩ "no such action" "begin refused" rfl (Or.inl rfl)

/-!
## Claims about startup reconciliation (`handler.SetUp`)
-/

/-- The cleanup loop handles each running action independently: the trace
of a concatenation is the concatenation of the traces. -/
theorem setUpCleanup_append (parse : String → Option String)
    (fin : String → ActionStatus → Option ParamsMap → String → Except String Unit)
    (l₁ l₂ : List RunningAction) :
    setUpCleanup parse fin (l₁ ++ l₂)
      = setUpCleanup parse fin l₁ ++ setUpCleanup parse fin l₂ := by
  induction l₁ with
  | nil => simp [setUpCleanup]
  | cons a l ih =>
    simp only [List.cons_append, setUpCleanup]
    cases parse a.tag with
    | none => simp [ih]
    | some tag =>
      cases fin tag .cancelled none "action cancelled" with
      | error _ => simp [ih]
      | ok _ => simp [ih]

/-- C5: at startup every running action contributes its own events
independently of failures on the others (first conjunct), a parseable tag
gets exactly one finish attempt and an unparseable one gets none (second
conjunct), and the per-item events are: a log and nothing else when the
tag does not parse, otherwise one `ActionFinish(tag, Cancelled, nil,
"action cancelled")` attempt followed by a log exactly when that call
fails (third conjunct).  No branch aborts the loop: `setUpCleanup` is
total and the decomposition holds for every position in the slice. -/
theorem c5_setup_attempts_one_cancel_per_running_action
    (parse : String → Option String)
    (fin : String → ActionStatus → Option ParamsMap → String → Except String Unit)
    (pre post : List RunningAction) (it : RunningAction) :
    setUpCleanup parse fin (pre ++ it :: post)
      = setUpCleanup parse fin pre ++ setUpCleanup parse fin [it]
          ++ setUpCleanup parse fin post
    ∧ totalFinishCount (setUpCleanup parse fin [it])
        = (if (parse it.tag).isSome then 1 else 0)
    ∧ setUpCleanup parse fin [it]
        = (match parse it.tag with
           | none => [.log ("tried to cancel action " ++ it.tag ++ " but failed")]
           | some tag =>
             .finish tag .cancelled none "action cancelled" ::
               (match fin tag .cancelled none "action cancelled" with
                | .error _ => [.log ("tried to cancel action " ++ it.tag ++ " but failed")]
                | .ok _ => [])) := by
  refine ⟨?_, ?_, ?_⟩
  · rw [setUpCleanup_append]
    have : setUpCleanup parse fin (it :: post)
        = setUpCleanup parse fin [it] ++ setUpCleanup parse fin post := by
      have := setUpCleanup_append parse fin [it] post
      simpa using this
    rw [this, List.append_assoc]
  · cases hp : parse it.tag with
    | none => simp [setUpCleanup, hp, totalFinishCount]
    | some tag =>
      cases hf : fin tag .cancelled none "action cancelled" with
      | error _ => simp [setUpCleanup, hp, hf, totalFinishCount]
      | ok _ => simp [setUpCleanup, hp, hf, totalFinishCount]
  · cases hp : parse it.tag with
    | none => simp [setUpCleanup, hp]
    | some tag =>
      cases hf : fin tag .cancelled none "action cancelled" with
      | error _ => simp [setUpCleanup, hp, hf]
      | ok _ => simp [setUpCleanup, hp, hf]

/-!
## Claims about timeout-bounded command execution
-/

/-- A channel targeted by no registered timer is never closed. -/
theorem earliestFire_eq_none (timers : List PendingTimer) (ch : Nat)
    (hne : ∀ tm ∈ timers, tm.chan_ ≠ ch) : earliestFire timers ch = none := by
  induction timers with
  | nil => rfl
  | cons tm rest ih =>
    simp only [earliestFire]
    rw [if_neg (hne tm (List.mem_cons_self _ _))]
    exact ih fun t ht => hne t (List.mem_cons_of_mem _ ht)

/-- When no old timer targets the fresh channel, the run's own timer is
the only closer of it. -/
theorem earliestFire_append_own (timers : List PendingTimer) (t ch : Nat)
    (hne : ∀ tm ∈ timers, tm.chan_ ≠ ch) :
    earliestFire (timers ++ [⟨t, ch⟩]) ch = some t := by
  induction timers with
  | nil => simp [earliestFire]
  | cons tm rest ih =>
    simp only [List.cons_append, earliestFire]
    rw [if_neg (hne tm (List.mem_cons_self _ _))]
    exact ih fun x hx => hne x (List.mem_cons_of_mem _ hx)

/-- Surviving timers after the run that allocated channel `st.nextChan`
still satisfy freshness with respect to the bumped channel counter. -/
theorem chanInv_surviving_append (st : ExecState) (hinv : ChanInv st) (fa t : Nat) :
    ∀ tm ∈ survivingTimers (st.pending ++ [⟨fa, st.nextChan⟩]) t,
      tm.chan_ < st.nextChan + 1 := by
  intro tm hm
  have hm' := (List.mem_filter.mp hm).1
  rcases List.mem_append.mp hm' with h | h
  · exact Nat.lt_succ_of_lt (hinv tm h)
  · rw [List.mem_singleton.mp h]
    exact Nat.lt_succ_self _

/-- Case characterisation: failed `cmd.Run()`. -/
theorem run_noStart (st : ExecState) (c : CommandSpec) (timeout : Int)
    (hs : c.startsOk = false) :
    runCommandWithTimeout st c timeout = (⟨.startError c.startErr, st.now, 0⟩, st) := by
  simp [runCommandWithTimeout, hs]

/-- Case characterisation: zero timeout, `nil` cancel channel, completion
awaited unconditionally. -/
theorem run_zero (st : ExecState) (c : CommandSpec) (hs : c.startsOk = true) :
    runCommandWithTimeout st c 0
      = (⟨.completed c.result, st.now + c.natDuration, 0⟩,
         ⟨st.now + c.natDuration, st.nextChan,
          survivingTimers st.pending (st.now + c.natDuration)⟩) := by
  simp [runCommandWithTimeout, hs]

/-- Case characterisation under channel freshness: the run's own timer
fires before natural completion and cancels the command. -/
theorem run_timer_wins (st : ExecState) (c : CommandSpec) (timeout : Int)
    (hinv : ChanInv st) (hs : c.startsOk = true) (ht : timeout ≠ 0)
    (hrace : st.now + timeout.toNat < st.now + c.natDuration) :
    runCommandWithTimeout st c timeout
      = (⟨.cancelledByTimeout c.partialResult, st.now + timeout.toNat, 1⟩,
         ⟨st.now + timeout.toNat, st.nextChan + 1,
          survivingTimers (st.pending ++ [⟨st.now + timeout.toNat, st.nextChan⟩])
            (st.now + timeout.toNat)⟩) := by
  have hne : ∀ tm ∈ st.pending, tm.chan_ ≠ st.nextChan :=
    fun tm h => Nat.ne_of_lt (hinv tm h)
  have hef := earliestFire_append_own st.pending (st.now + timeout.toNat) st.nextChan hne
  simp [runCommandWithTimeout, hs, ht, hef, hrace]

/-- Case characterisation under channel freshness: natural completion at
or before the timer, command's own result returned, timer goroutine left
pending. -/
theorem run_command_wins (st : ExecState) (c : CommandSpec) (timeout : Int)
    (hinv : ChanInv st) (hs : c.startsOk = true) (ht : timeout ≠ 0)
    (hrace : ¬ st.now + timeout.toNat < st.now + c.natDuration) :
    runCommandWithTimeout st c timeout
      = (⟨.completed c.result, st.now + c.natDuration, 0⟩,
         ⟨st.now + c.natDuration, st.nextChan + 1,
          survivingTimers (st.pending ++ [⟨st.now + timeout.toNat, st.nextChan⟩])
            (st.now + c.natDuration)⟩) := by
  have hne : ∀ tm ∈ st.pending, tm.chan_ ≠ st.nextChan :=
    fun tm h => Nat.ne_of_lt (hinv tm h)
  have hef := earliestFire_append_own st.pending (st.now + timeout.toNat) st.nextChan hne
  simp [runCommandWithTimeout, hs, ht, hef, hrace]

/-- Under channel freshness, a run's observable result coincides with the
state-independent reference behaviour `soloRun`: leftover timers from
earlier runs never close the fresh channel. -/
theorem run_eq_soloRun (st : ExecState) (c : CommandSpec) (timeout : Int)
    (hinv : ChanInv st) :
    (runCommandWithTimeout st c timeout).1 = soloRun st.now c timeout := by
  by_cases hs : c.startsOk
  · by_cases ht : timeout = 0
    · subst ht
      rw [run_zero st c hs]
      simp [soloRun, hs]
    · by_cases hrace : st.now + timeout.toNat < st.now + c.natDuration
      · rw [run_timer_wins st c timeout hinv hs ht hrace]
        simp [soloRun, hs, ht, hrace]
      · rw [run_command_wins st c timeout hinv hs ht hrace]
        simp [soloRun, hs, ht, hrace]
  · have hs' : c.startsOk = false := by simpa using hs
    rw [run_noStart st c timeout hs']
    simp [soloRun, hs']

/-- Channel freshness is preserved by every run. -/
theorem run_chanInv (st : ExecState) (c : CommandSpec) (timeout : Int)
    (hinv : ChanInv st) :
    ChanInv (runCommandWithTimeout st c timeout).2 := by
  by_cases hs : c.startsOk
  · by_cases ht : timeout = 0
    · subst ht
      rw [run_zero st c hs]
      intro tm hm
      exact hinv tm (List.mem_filter.mp hm).1
    · by_cases hrace : st.now + timeout.toNat < st.now + c.natDuration
      · rw [run_timer_wins st c timeout hinv hs ht hrace]
        intro tm hm
        exact chanInv_surviving_append st hinv _ _ tm hm
      · rw [run_command_wins st c timeout hinv hs ht hrace]
        intro tm hm
        exact chanInv_surviving_append st hinv _ _ tm hm
  · have hs' : c.startsOk = false := by simpa using hs
    rw [run_noStart st c timeout hs']
    exact hinv

/-- Under channel freshness, the state's clock after a run stands at the
run's return time. -/
theorem run_now_eq_returnAt (st : ExecState) (c : CommandSpec) (timeout : Int)
    (hinv : ChanInv st) :
    (runCommandWithTimeout st c timeout).2.now
      = (runCommandWithTimeout st c timeout).1.returnAt := by
  by_cases hs : c.startsOk
  · by_cases ht : timeout = 0
    · subst ht
      rw [run_zero st c hs]
    · by_cases hrace : st.now + timeout.toNat < st.now + c.natDuration
      · rw [run_timer_wins st c timeout hinv hs ht hrace]
      · rw [run_command_wins st c timeout hinv hs ht hrace]
  · have hs' : c.startsOk = false := by simpa using hs
    rw [run_noStart st c timeout hs']

/-- C6: with a non-zero timeout shorter than the command's natural
duration, the run returns at the timeout instant — strictly before the
command's natural completion — with the partial result annotated as
cancelled by timeout, and the cancellation capability (the single
goroutine's one `close` of the cancel channel, which makes
`WaitWithCancel` kill the process) is invoked exactly once. -/
theorem c6_timeout_cancels_before_completion
    (st : ExecState) (c : CommandSpec) (timeout : Int)
    (hinv : ChanInv st) (hs : c.startsOk = true)
    (hpos : 0 < timeout) (hlt : timeout.toNat < c.natDuration) :
    (runCommandWithTimeout st c timeout).1.outcome = .cancelledByTimeout c.partialResult
    ∧ (runCommandWithTimeout st c timeout).1.returnAt = st.now + timeout.toNat
    ∧ (runCommandWithTimeout st c timeout).1.returnAt < st.now + c.natDuration
    ∧ (runCommandWithTimeout st c timeout).1.cancelInvocations = 1 := by
  have ht : timeout ≠ 0 := by omega
  have hrace : st.now + timeout.toNat < st.now + c.natDuration :=
    Nat.add_lt_add_left hlt st.now
  rw [run_eq_soloRun st c timeout hinv]
  simp only [soloRun, hs, Bool.not_true, Bool.false_eq_true, if_false, ne_eq]
  rw [if_pos ⟨ht, hrace⟩]
  exact ⟨rfl, rfl, hrace, rfl⟩

/-- Closed instance of the C6 theorem: from a state with one leftover
timer, a 100 ns timeout against a command needing 500 ns. -/
theorem c6_timeout_witness :
    (runCommandWithTimeout ⟨7, 3, [⟨1000, 1⟩]⟩
        ⟨true, "", 500, ⟨0, "done", ""⟩, ⟨-1, "", ""⟩⟩ 100).1.outcome
      = .cancelledByTimeout ⟨-1, "", ""⟩
    ∧ (runCommandWithTimeout ⟨7, 3, [⟨1000, 1⟩]⟩
        ⟨true, "", 500, ⟨0, "done", ""⟩, ⟨-1, "", ""⟩⟩ 100).1.returnAt = 7 + (100 : Int).toNat
    ∧ (runCommandWithTimeout ⟨7, 3, [⟨1000, 1⟩]⟩
        ⟨true, "", 500, ⟨0, "done", ""⟩, ⟨-1, "", ""⟩⟩ 100).1.returnAt < 7 + 500
    ∧ (runCommandWithTimeout ⟨7, 3, [⟨1000, 1⟩]⟩
        ⟨true, "", 500, ⟨0, "done", ""⟩, ⟨-1, "", ""⟩⟩ 100).1.cancelInvocations = 1 :=
  c6_timeout_cancels_before_completion ⟨7, 3, [⟨1000, 1⟩]⟩
    ⟨true, "", 500, ⟨0, "done", ""⟩, ⟨-1, "", ""⟩⟩ 100
    (by intro tm hm; rcases List.mem_singleton.mp hm with rfl; decide)
    rfl (by decide) (by decide)

/-- C7: the losing timer is never stopped — its goroutine fires later and
closes the by-then dead channel — but it is discarded harmlessly: under
channel freshness every run's observable result equals the
state-independent `soloRun` of its own command and timeout, so timers
left over by earlier runs (in particular by a run whose command completed
first) cannot affect any later execution; and freshness is preserved, so
this holds along any sequence of runs. -/
theorem c7_leftover_timer_cannot_affect_later_run
    (st : ExecState) (c : CommandSpec) (timeout : Int) (hinv : ChanInv st) :
    (runCommandWithTimeout st c timeout).1 = soloRun st.now c timeout
    ∧ ChanInv (runCommandWithTimeout st c timeout).2 :=
  ⟨run_eq_soloRun st c timeout hinv, run_chanInv st c timeout hinv⟩

/-- Closed instance of the C7 theorem: a state still carrying the timer
left over from a previous run (channel 0, firing at time 50) does not
disturb the next run. -/
theorem c7_leftover_timer_witness :
    (runCommandWithTimeout ⟨10, 1, [⟨50, 0⟩]⟩
        ⟨true, "", 30, ⟨0, "ok", ""⟩, ⟨-1, "", ""⟩⟩ 200).1
      = soloRun 10 ⟨true, "", 30, ⟨0, "ok", ""⟩, ⟨-1, "", ""⟩⟩ 200
    ∧ ChanInv (runCommandWithTimeout ⟨10, 1, [⟨50, 0⟩]⟩
        ⟨true, "", 30, ⟨0, "ok", ""⟩, ⟨-1, "", ""⟩⟩ 200).2 :=
  c7_leftover_timer_cannot_affect_later_run ⟨10, 1, [⟨50, 0⟩]⟩
    ⟨true, "", 30, ⟨0, "ok", ""⟩, ⟨-1, "", ""⟩⟩ 200
    (by intro tm hm; rcases List.mem_singleton.mp hm with rfl; decide)

/-!
## Claims about the juju-run parameter decoding
-/

/-- C8: the timeout is read from the parameter mapping as a float64 and
converted to a duration as a nanosecond count (part two: with a positive
decoded duration below the command's natural duration the call is
annotated cancelled and returns at exactly `now` plus that many
truncated nanoseconds); and a missing or zero timeout starts no timer —
channel counter untouched, completion awaited — and returns the command's
true result whatever its natural duration (part one). -/
theorem c8_timeout_float_ns_and_zero_unbounded
    (world : String → CommandSpec) (st : ExecState) (p : ParamsMap) (q : Rat)
    (hinv : ChanInv st)
    (hstart : (world (decodeCommand p)).startsOk = true) :
    ((lookupParam p "timeout" = none ∨ lookupParam p "timeout" = some (.num 0)) →
       handleJujuRunAction world st p
         = ((mkActionResults (world (decodeCommand p)).result, none),
            ⟨st.now + (world (decodeCommand p)).natDuration, st.nextChan,
             survivingTimers st.pending (st.now + (world (decodeCommand p)).natDuration)⟩))
    ∧ (lookupParam p "timeout" = some (.num q) → 0 < goDuration q →
        (goDuration q).toNat < (world (decodeCommand p)).natDuration →
        (handleJujuRunAction world st p).1.2 = some "command cancelled"
        ∧ (handleJujuRunAction world st p).2.now = st.now + (goDuration q).toNat) := by
  constructor
  · intro hz
    have hdt : decodeTimeout p = 0 := by
      rcases hz with h | h <;> simp [decodeTimeout, h]
    have hg : goDuration 0 = 0 := rfl
    simp [handleJujuRunAction, hdt, hg, run_zero st (world (decodeCommand p)) hstart]
  · intro hq hpos hlt
    have hdt : decodeTimeout p = q := by simp [decodeTimeout, hq]
    have ht : goDuration q ≠ 0 := by omega
    have hrace : st.now + (goDuration q).toNat < st.now + (world (decodeCommand p)).natDuration :=
      Nat.add_lt_add_left hlt _
    have hrun := run_timer_wins st (world (decodeCommand p)) (goDuration q) hinv hstart ht hrace
    constructor <;> simp [handleJujuRunAction, hdt, hrun]

/-- Closed instance of the C8 theorem: a 100 ns float timeout against a
command that needs 500 ns, from the pristine state. -/
theorem c8_timeout_witness :
    ((lookupParam [("command", .str "sleep"), ("timeout", .num 100)] "timeout" = none
      ∨ lookupParam [("command", .str "sleep"), ("timeout", .num 100)] "timeout"
          = some (.num 0)) →
       handleJujuRunAction (fun _ => ⟨true, "", 500, ⟨0, "out", ""⟩, ⟨-1, "", ""⟩⟩)
           ⟨0, 0, []⟩ [("command", .str "sleep"), ("timeout", .num 100)]
         = ((mkActionResults (⟨0, "out", ""⟩ : ExecResponse), none),
            ⟨0 + 500, 0, survivingTimers [] (0 + 500)⟩))
    ∧ (lookupParam [("command", .str "sleep"), ("timeout", .num 100)] "timeout"
          = some (.num 100) →
        0 < goDuration 100 → (goDuration 100).toNat < 500 →
        (handleJujuRunAction (fun _ => ⟨true, "", 500, ⟨0, "out", ""⟩, ⟨-1, "", ""⟩⟩)
            ⟨0, 0, []⟩ [("command", .str "sleep"), ("timeout", .num 100)]).1.2
          = some "command cancelled"
        ∧ (handleJujuRunAction (fun _ => ⟨true, "", 500, ⟨0, "out", ""⟩, ⟨-1, "", ""⟩⟩)
            ⟨0, 0, []⟩ [("command", .str "sleep"), ("timeout", .num 100)]).2.now
          = 0 + (goDuration 100).toNat) :=
  c8_timeout_float_ns_and_zero_unbounded
    (fun _ => ⟨true, "", 500, ⟨0, "out", ""⟩, ⟨-1, "", ""⟩⟩) ⟨0, 0, []⟩
    [("command", .str "sleep"), ("timeout", .num 100)] 100
    (by intro tm hm; exact absurd hm (List.not_mem_nil tm)) rfl

/-- C10: the built-in handler's parameter decoding is total with zero
values as defaults: when no string sits under `command` the command text
decodes to `""`, when no float64 sits under `timeout` the timeout decodes
to `0`, and with both defaults the handler behaves exactly as on an empty
parameter mapping. -/
theorem c10_juju_run_decoding_total
    (world : String → CommandSpec) (st : ExecState) (p : ParamsMap)
    (hcmd : ∀ s, lookupParam p "command" ≠ some (.str s))
    (htime : ∀ q, lookupParam p "timeout" ≠ some (.num q)) :
    decodeCommand p = "" ∧ decodeTimeout p = 0
    ∧ handleJujuRunAction world st p = handleJujuRunAction world st [] := by
  have hc : decodeCommand p = "" := by
    unfold decodeCommand
    cases h : lookupParam p "command" with
    | none => rfl
    | some v =>
      cases v with
      | str s => exact absurd h (hcmd s)
      | num q => rfl
      | other => rfl
  have ht : decodeTimeout p = 0 := by
    unfold decodeTimeout
    cases h : lookupParam p "timeout" with
    | none => rfl
    | some v =>
      cases v with
      | str s => rfl
      | num q => exact absurd h (htime q)
      | other => rfl
  have hc0 : decodeCommand [] = "" := rfl
  have ht0 : decodeTimeout [] = 0 := rfl
  refine ⟨hc, ht, ?_⟩
  simp only [handleJujuRunAction, hc, ht, hc0, ht0]

/-- Closed instance of the C10 theorem: `command` holds a non-string,
`timeout` holds a non-number. -/
theorem c10_decoding_witness :
    decodeCommand [("command", GoValue.other), ("timeout", .str "x")] = ""
    ∧ decodeTimeout [("command", GoValue.other), ("timeout", .str "x")] = 0
    ∧ handleJujuRunAction (fun _ => ⟨true, "", 5, ⟨0, "", ""⟩, ⟨-1, "", ""⟩⟩) ⟨0, 0, []⟩
        [("command", GoValue.other), ("timeout", .str "x")]
      = handleJujuRunAction (fun _ => ⟨true, "", 5, ⟨0, "", ""⟩, ⟨-1, "", ""⟩⟩) ⟨0, 0, []⟩ [] :=
  c10_juju_run_decoding_total (fun _ => ⟨true, "", 5, ⟨0, "", ""⟩, ⟨-1, "", ""⟩⟩) ⟨0, 0, []⟩
    [("command", GoValue.other), ("timeout", .str "x")]
    (by intro s h; simp [lookupParam] at h)
    (by intro q h; simp [lookupParam] at h)

end MachineActions
